import Mathlib

/-!
Shallow embedding of `src/numerics.py` (class `NumericalCalculation`) from the
QuantumTunellingApp repository: a Crank–Nicolson integrator for the 1-D
time-dependent Schrödinger equation with a rectangular potential barrier.

Python floats are idealised as exact rationals (`ℚ`) for all quantities built
from the inputs by field operations, and as real/complex numbers (`ℝ`/`ℂ`)
where transcendental functions (`sqrt`, `exp`, `π`, powers) enter.
`numpy` arrays are modelled as functions out of `Fin` of their length.
-/

namespace QT

/-- The seven constructor arguments of `NumericalCalculation.__init__`
(`src/numerics.py` lines 8–9), in their human units
(nm, nm, fs, eV, eV, pm, as). -/
structure Params where
  size_packet : ℚ
  size_barrier : ℚ
  duration_time : ℚ
  energy_packet : ℚ
  potential_barrier_height : ℚ
  dx : ℚ
  dt : ℚ

/-- `scipy.constants.e` (elementary charge, exact CODATA 2018 value). -/
def eCharge : ℚ := 1.602176634e-19

/-- `scipy.constants.hbar` (reduced Planck constant, CODATA 2018 value). -/
def hbar : ℝ := 1.054571817e-34

/-- `scipy.constants.m_e` (electron mass, CODATA 2018 value). -/
def mE : ℝ := 9.1093837015e-31

/-- Python `int()` applied to a (rational-modelled) float: truncation toward
zero. On a normalised `ℚ` this is T-division of numerator by denominator. -/
def pyInt (q : ℚ) : ℤ := Int.tdiv q.num q.den

/-- `np.linspace a b num` as a function of the index (junk beyond `num`);
`num` points from `a` to `b` inclusive, `linspace a b 1 = [a]`. -/
def linspace (a b : ℚ) (num : ℕ) (i : ℕ) : ℚ :=
  if num = 1 then a else a + i * (b - a) / ((num : ℚ) - 1)

/-! SI conversions, `src/numerics.py` lines 22–28. -/

/-- `self.size_packet = size_packet * 1e-9` (line 22). -/
def siSizePacket (p : Params) : ℚ := p.size_packet * 1e-9

/-- `self.size_barrier = size_barrier * 1e-9` (line 23). -/
def siSizeBarrier (p : Params) : ℚ := p.size_barrier * 1e-9

/-- `self.time_duration = duration_time * 1e-15` (line 24). -/
def siTimeDuration (p : Params) : ℚ := p.duration_time * 1e-15

/-- `self.energy_packet = energy_packet * e` (line 25). -/
def siEnergyPacket (p : Params) : ℚ := p.energy_packet * eCharge

/-- `self.potential_barrier_height = potential_barrier_height * e` (line 26). -/
def siPBH (p : Params) : ℚ := p.potential_barrier_height * eCharge

/-- `self.dx = dx*1e-12` (line 27). -/
def siDx (p : Params) : ℚ := p.dx * 1e-12

/-- `self.dt = dt*1e-18` (line 28). -/
def siDt (p : Params) : ℚ := p.dt * 1e-18

/-! Spatial layout, lines 33–41. -/

/-- `sigma = 6*self.size_packet` (line 33). -/
def sigmaV (p : Params) : ℚ := 6 * siSizePacket p

/-- `self.x_packet = 2*sigma` (line 34). -/
def xPacketV (p : Params) : ℚ := 2 * sigmaV p

/-- `self.x_barrier = self.x_packet + sigma` (line 35). -/
def xBarrierV (p : Params) : ℚ := xPacketV p + sigmaV p

/-- `self.x_min = 0.0` (line 37). -/
def xMinV : ℚ := 0

/-- `self.x_max = self.x_barrier + 4 * sigma` (line 38). -/
def xMaxV (p : Params) : ℚ := xBarrierV p + 4 * sigmaV p

/-- `self.division_x = int((self.x_max - self.x_min) / self.dx)` (line 40). -/
def divisionX (p : Params) : ℤ := pyInt ((xMaxV p - xMinV) / siDx p)

/-- Number of spatial grid points as a natural number. -/
def NN (p : Params) : ℕ := (divisionX p).toNat

/-- `self.x = np.linspace(self.x_min, self.x_max, self.division_x)` (line 41). -/
def xGrid (p : Params) (i : ℕ) : ℚ := linspace xMinV (xMaxV p) (NN p) i

/-! Temporal layout, lines 45–46. -/

/-- `self.division_time = int(self.time_duration/self.dt)` (line 45). -/
def divisionTime (p : Params) : ℤ := pyInt (siTimeDuration p / siDt p)

/-- Number of temporal grid points as a natural number. -/
def TT (p : Params) : ℕ := (divisionTime p).toNat

/-- `self.t = np.linspace(0.0, self.time_duration, self.division_time)` (line 46). -/
def tGrid (p : Params) (i : ℕ) : ℚ := linspace 0 (siTimeDuration p) (TT p) i

/-- `self.V = np.where((self.x_barrier <= self.x) & (self.x <= self.x_barrier
+ self.size_barrier), self.potential_barrier_height, 0)` (lines 50–54). -/
def Vpot (p : Params) (i : ℕ) : ℚ :=
  if xBarrierV p ≤ xGrid p i ∧ xGrid p i ≤ xBarrierV p + siSizeBarrier p then
    siPBH p else 0

/-- The documented default parameter values
(`src/gui.py`, `SimulationConfig.DEFAULT_VALUES`). -/
def defaultParams : Params :=
  { size_packet := 1, size_barrier := 1, duration_time := 30,
    energy_packet := 1, potential_barrier_height := 1, dx := 10, dt := 10 }

/-! Evaluation helpers for `pyInt`. -/

/-- `self.k = np.sqrt(2 * m_e * self.energy_packet) / hbar` (line 57). -/
noncomputable def kWave (p : Params) : ℝ :=
  Real.sqrt (2 * mE * (siEnergyPacket p : ℝ)) / hbar

/-- `self.dk = 2 * np.pi / (self.x_max - self.x_min)` (line 58). -/
noncomputable def dkV (p : Params) : ℝ :=
  2 * Real.pi / ((xMaxV p : ℝ) - (xMinV : ℝ))

/-- `self.K = self.dk * np.linspace(-1, 1, self.division_x)` (line 59). -/
noncomputable def KArr (p : Params) (i : ℕ) : ℝ :=
  dkV p * (linspace (-1) 1 (NN p) i : ℝ)

/-! Matrix assembly, `_get_numerical_parameters` (lines 76–116). -/

/-- `n = self.division_x - 2` (line 88), as a natural number (the valid case). -/
def nInt (p : Params) : ℕ := NN p - 2

/-- `r = 1j * self.dt / self.dx ** 2 * hbar / (4 * m_e)` (line 95). -/
noncomputable def rC (p : Params) : ℂ :=
  Complex.I * (siDt p : ℂ) / (siDx p : ℂ) ^ 2 * (hbar : ℂ) / (4 * (mE : ℂ))

/-- `q = -1j * self.dt / hbar * self.V[1:-1] + 1 - 2 * r` (line 96);
entry `j` of the slice `V[1:-1]` is `V (j+1)`. -/
noncomputable def qC (p : Params) (j : ℕ) : ℂ :=
  -Complex.I * (siDt p : ℂ) / (hbar : ℂ) * (Vpot p (j + 1) : ℂ) + 1 - 2 * rC p

/-- Entries of matrix `A`: zero-initialised, then main diagonal `1 + 2r`,
upper diagonal `-r`, lower diagonal `-r` (lines 91, 99–101). -/
noncomputable def Aentry (p : Params) (i j : ℕ) : ℂ :=
  if i = j then 1 + 2 * rC p
  else if j = i + 1 then -rC p
  else if i = j + 1 then -rC p
  else 0

/-- Entries of matrix `B`: zero-initialised, then main diagonal `q`, upper
diagonal `r`, lower diagonal `r` (lines 92, 103–105). -/
noncomputable def Bentry (p : Params) (i j : ℕ) : ℂ :=
  if i = j then qC p i
  else if j = i + 1 then rC p
  else if i = j + 1 then rC p
  else 0

/-- Vector `b`: `np.zeros(n)` followed by the assignments `b[0] = 0` and
`b[-1] = 0` (lines 93, 108–109), hence identically zero. -/
def bVecN : ℕ → ℂ := fun _ => 0

/-- The `n × n` system matrix `A` (line 112 converts it to sparse format,
which does not change its entries). -/
noncomputable def Amat (p : Params) : Matrix (Fin (nInt p)) (Fin (nInt p)) ℂ :=
  Matrix.of fun i j => Aentry p i j

/-- Matrix–vector product of an `n × n` matrix with a length-`n` vector,
both stored as functions (`@` of `scipy` sparse matrices). -/
noncomputable def mulVecR (n : ℕ) (M : ℕ → ℕ → ℂ) (v : ℕ → ℂ) : ℕ → ℂ :=
  fun i => ∑ j ∈ Finset.range n, M i j * v j

/-- The action of `self.lu = splu(self.A)` (line 116): `scipy`'s `splu` wraps
an LU factorisation of `A`; its `solve` method returns the solution of
`A · x = w`, i.e. `A⁻¹ · w` for invertible `A` (indices beyond `n` are out
of the result array's range and modelled as `0`). -/
noncomputable def luSolveN (p : Params) : (ℕ → ℂ) → ℕ → ℂ := fun w i =>
  if h : i < nInt p then (Amat p)⁻¹.mulVec (fun j : Fin (nInt p) => w j) ⟨i, h⟩
  else 0

/-! Initial packet, `_gauss` (lines 67–74) and line 64. -/

/-- `_gauss`: `np.exp(-(x - self.x_packet) ** 2 / (4 * self.size_packet ** 2)
+ 1j * self.k * x) / (2 * np.pi * self.size_packet ** 2) ** 0.25`
(lines 73–74). -/
noncomputable def gauss (p : Params) (x : ℚ) : ℂ :=
  Complex.exp (-((x : ℂ) - (xPacketV p : ℂ)) ^ 2 / (4 * (siSizePacket p : ℂ) ^ 2)
      + Complex.I * (kWave p : ℂ) * (x : ℂ))
    / (((2 * Real.pi * (siSizePacket p : ℝ) ^ 2) ^ ((0.25 : ℝ)) : ℝ) : ℂ)

/-- The full object state of a `NumericalCalculation` instance: every field
assigned by `__init__` and `_get_numerical_parameters`. Arrays are functions
of the index; the fields `N`, `n`, `T` record their lengths
(`division_x`, `division_x - 2`, `division_time`). -/
structure Sim where
  N : ℕ
  n : ℕ
  T : ℕ
  size_packet : ℚ
  size_barrier : ℚ
  time_duration : ℚ
  energy_packet : ℚ
  potential_barrier_height : ℚ
  dx : ℚ
  dt : ℚ
  x_packet : ℚ
  x_barrier : ℚ
  x_min : ℚ
  x_max : ℚ
  x : ℕ → ℚ
  t : ℕ → ℚ
  V : ℕ → ℚ
  k : ℝ
  dk : ℝ
  K : ℕ → ℝ
  A : ℕ → ℕ → ℂ
  B : ℕ → ℕ → ℂ
  b : ℕ → ℂ
  lu : (ℕ → ℂ) → ℕ → ℂ
  packet : ℕ → ℂ
  rhs : ℕ → ℂ

/-- The interior slice `v[1:-1]` of a length-`N` array: entry `j` is
`v (j+1)` (its length is `N - 2`). -/
def interiorN (v : ℕ → ℂ) : ℕ → ℂ := fun j => v (j + 1)

/-- The object built by `__init__` (lines 20–65) for parameters `p`:
all derived fields, the initial packet `[self._gauss(x) for x in self.x]`
(line 64), and the initial cache `self.rhs_eq = self.B @ self.packet[1:-1]
+ self.b` (line 65). -/
noncomputable def build (p : Params) : Sim where
  N := NN p
  n := nInt p
  T := TT p
  size_packet := siSizePacket p
  size_barrier := siSizeBarrier p
  time_duration := siTimeDuration p
  energy_packet := siEnergyPacket p
  potential_barrier_height := siPBH p
  dx := siDx p
  dt := siDt p
  x_packet := xPacketV p
  x_barrier := xBarrierV p
  x_min := xMinV
  x_max := xMaxV p
  x := fun i => xGrid p i
  t := fun i => tGrid p i
  V := fun i => Vpot p i
  k := kWave p
  dk := dkV p
  K := fun i => KArr p i
  A := fun i j => Aentry p i j
  B := fun i j => Bentry p i j
  b := bVecN
  lu := luSolveN p
  packet := fun i => gauss p (xGrid p i)
  rhs := fun i =>
    mulVecR (nInt p) (Bentry p) (interiorN fun j => gauss p (xGrid p j)) i
      + bVecN i

/-- `calculate_timestep` (lines 118–126):
`self.packet[1:-1] = self.lu.solve(self.rhs_eq)` writes the solve result into
the interior indices `1 … N-2`, then
`self.rhs_eq = self.B @ self.packet[1:-1] + self.b` recomputes the cache from
the updated packet. All other fields are untouched. -/
noncomputable def calculate_timestep (s : Sim) : Sim :=
  let sol := s.lu s.rhs
  let newPacket : ℕ → ℂ := fun i =>
    if 1 ≤ i ∧ i ≤ s.N - 2 then sol (i - 1) else s.packet i
  { s with
    packet := newPacket
    rhs := fun i => mulVecR s.n s.B (interiorN newPacket) i + s.b i }

/-- `get_packet` (lines 128–133): returns an independent copy of the packet
array (`self.packet.copy()`); in the functional model a copy is the array
itself. -/
def Sim.get_packet (s : Sim) : ℕ → ℂ := fun i => s.packet i

/-- The ways construction can abort for positive parameters, labelled by the
`numpy` exception the source hits. -/
inductive BuildError where
  /-- `ValueError` from `np.zeros((n, n))` (line 91) when `n < 0`. -/
  | negativeDimension : BuildError
  /-- `IndexError` from `b[0] = 0` (line 108) when `n = 0`. -/
  | indexOutOfRange : BuildError
deriving DecidableEq

/-- Fallible construction. For strictly positive parameters the source's
lines 22–59 cannot raise; the first possible failure is `np.zeros((n, n))`
at line 91 with `n = division_x - 2 < 0`, then `b[0] = 0` at line 108 with
`n = 0`; otherwise `__init__` completes and returns the instance. There is
no parameter-validation code and no `InvalidConfiguration` exception
anywhere in the source. -/
noncomputable def construct (p : Params) : Except BuildError Sim :=
  if divisionX p - 2 < 0 then .error .negativeDimension
  else if divisionX p - 2 = 0 then .error .indexOutOfRange
  else .ok (build p)

/-- Validity of a construction, as the spec's contract reads: seven strictly
positive inputs and a non-degenerate spatial grid (at least one interior
point). -/
def Valid (p : Params) : Prop :=
  0 < p.size_packet ∧ 0 < p.size_barrier ∧ 0 < p.duration_time ∧
  0 < p.energy_packet ∧ 0 < p.potential_barrier_height ∧
  0 < p.dx ∧ 0 < p.dt ∧ 3 ≤ divisionX p

instance (p : Params) : Decidable (Valid p) := by
  unfold Valid; infer_instance

/-- All precomputed fields of `s₁` agree with those of `s₂` (everything except
the state vector `packet` and the cache `rhs`). -/
def Frozen (s₁ s₂ : Sim) : Prop :=
  s₁.N = s₂.N ∧ s₁.n = s₂.n ∧ s₁.T = s₂.T ∧
  s₁.size_packet = s₂.size_packet ∧ s₁.size_barrier = s₂.size_barrier ∧
  s₁.time_duration = s₂.time_duration ∧ s₁.energy_packet = s₂.energy_packet ∧
  s₁.potential_barrier_height = s₂.potential_barrier_height ∧
  s₁.dx = s₂.dx ∧ s₁.dt = s₂.dt ∧
  s₁.x_packet = s₂.x_packet ∧ s₁.x_barrier = s₂.x_barrier ∧
  s₁.x_min = s₂.x_min ∧ s₁.x_max = s₂.x_max ∧
  s₁.x = s₂.x ∧ s₁.t = s₂.t ∧ s₁.V = s₂.V ∧
  s₁.k = s₂.k ∧ s₁.dk = s₂.dk ∧ s₁.K = s₂.K ∧
  s₁.A = s₂.A ∧ s₁.B = s₂.B ∧ s₁.b = s₂.b ∧ s₁.lu = s₂.lu

/-- The real number `c` with `r = i·c`:
`c = dt/dx² · ħ/(4·m_e)` in SI units. -/
noncomputable def creal (p : Params) : ℝ :=
  (siDt p : ℝ) / (siDx p : ℝ) ^ 2 * hbar / (4 * mE)

/-- Default parameters except a tiny duration (`0.001 fs`), so that the
temporal grid is degenerate: `T = int(0.001e-15 / 10e-18) = 0 < 1`. -/
def lowDurationParams : Params :=
  { size_packet := 1, size_barrier := 1, duration_time := 1/1000,
    energy_packet := 1, potential_barrier_height := 1, dx := 10, dt := 10 }

theorem pyInt_ofNat (n : ℕ) [n.AtLeastTwo] :
    pyInt (OfNat.ofNat n : ℚ) = OfNat.ofNat n := by
  simp [pyInt, Rat.num_ofNat, Rat.den_ofNat, Int.tdiv_one]

theorem pyInt_zero : pyInt (0 : ℚ) = 0 := by
  simp [pyInt]

theorem pyInt_eq_floor {q : ℚ} (h : 0 ≤ q) : pyInt q = ⌊q⌋ := by
  rw [pyInt, Rat.floor_def,
    Int.tdiv_eq_ediv (Rat.num_nonneg.mpr h) (Int.ofNat_nonneg q.den)]

theorem divisionX_default : divisionX defaultParams = 4200 := by
  have h : (xMaxV defaultParams - xMinV) / siDx defaultParams = (4200 : ℚ) := by
    norm_num [xMaxV, xBarrierV, xPacketV, sigmaV, siSizePacket, siDx, xMinV,
      defaultParams]
  rw [divisionX, h, pyInt_ofNat]

theorem divisionTime_default : divisionTime defaultParams = 3000 := by
  have h : siTimeDuration defaultParams / siDt defaultParams = (3000 : ℚ) := by
    norm_num [siTimeDuration, siDt, defaultParams]
  rw [divisionTime, h, pyInt_ofNat]

/-! Wavenumber data, lines 57–59. -/

theorem frozen_step (s : Sim) : Frozen (calculate_timestep s) s :=
  ⟨rfl, rfl, rfl, rfl, rfl, rfl, rfl, rfl, rfl, rfl, rfl, rfl,
   rfl, rfl, rfl, rfl, rfl, rfl, rfl, rfl, rfl, rfl, rfl, rfl⟩

theorem frozen_trans {s₁ s₂ s₃ : Sim} (h₁ : Frozen s₁ s₂) (h₂ : Frozen s₂ s₃) :
    Frozen s₁ s₃ := by
  obtain ⟨a1, a2, a3, a4, a5, a6, a7, a8, a9, a10, a11, a12,
    a13, a14, a15, a16, a17, a18, a19, a20, a21, a22, a23, a24⟩ := h₁
  obtain ⟨b1, b2, b3, b4, b5, b6, b7, b8, b9, b10, b11, b12,
    b13, b14, b15, b16, b17, b18, b19, b20, b21, b22, b23, b24⟩ := h₂
  exact ⟨a1.trans b1, a2.trans b2, a3.trans b3, a4.trans b4, a5.trans b5,
    a6.trans b6, a7.trans b7, a8.trans b8, a9.trans b9, a10.trans b10,
    a11.trans b11, a12.trans b12, a13.trans b13, a14.trans b14, a15.trans b15,
    a16.trans b16, a17.trans b17, a18.trans b18, a19.trans b19, a20.trans b20,
    a21.trans b21, a22.trans b22, a23.trans b23, a24.trans b24⟩

theorem frozen_iterate (s : Sim) (m : ℕ) :
    Frozen (calculate_timestep^[m] s) s := by
  induction m with
  | zero =>
    exact ⟨rfl, rfl, rfl, rfl, rfl, rfl, rfl, rfl, rfl, rfl, rfl, rfl,
      rfl, rfl, rfl, rfl, rfl, rfl, rfl, rfl, rfl, rfl, rfl, rfl⟩
  | succ m ih =>
    rw [Function.iterate_succ_apply']
    exact frozen_trans (frozen_step _) ih

theorem rC_eq_I_mul_creal (p : Params) : rC p = Complex.I * (creal p : ℂ) := by
  rw [rC, creal]
  push_cast
  ring

theorem hbar_pos : (0 : ℝ) < hbar := by norm_num [hbar]

theorem mE_pos : (0 : ℝ) < mE := by norm_num [mE]

theorem creal_pos {p : Params} (hdt : 0 < p.dt) (hdx : 0 < p.dx) :
    0 < creal p := by
  have h1 : (0 : ℝ) < (siDt p : ℝ) := by
    rw [siDt]; push_cast; positivity
  have h2 : (0 : ℝ) < (siDx p : ℝ) := by
    rw [siDx]; push_cast; positivity
  rw [creal]
  exact div_pos (mul_pos (div_pos h1 (pow_pos h2 2)) hbar_pos)
    (by nlinarith [mE_pos])

theorem norm_rC {p : Params} (hdt : 0 < p.dt) (hdx : 0 < p.dx) :
    ‖rC p‖ = creal p := by
  rw [rC_eq_I_mul_creal, norm_mul, Complex.norm_I, one_mul, Complex.norm_real,
    Real.norm_eq_abs, abs_of_pos (creal_pos hdt hdx)]

theorem two_norm_rC_lt_norm_diag {p : Params} (hdt : 0 < p.dt) (hdx : 0 < p.dx) :
    2 * ‖rC p‖ < ‖1 + 2 * rC p‖ := by
  have hc := creal_pos hdt hdx
  rw [norm_rC hdt hdx]
  have hsq : ‖1 + 2 * rC p‖ ^ 2 = 1 + 4 * creal p ^ 2 := by
    rw [rC_eq_I_mul_creal, Complex.norm_eq_abs, Complex.sq_abs]
    simp [Complex.normSq_apply]
    ring
  have h2 : (2 * creal p) ^ 2 < ‖1 + 2 * rC p‖ ^ 2 := by
    rw [hsq]; nlinarith
  exact lt_of_pow_lt_pow_left₀ 2 (norm_nonneg _) h2

/-- A sum of an indicator-like function over a finset is at most `c` when the
predicate holds for at most one element. -/
theorem sum_ite_le {α : Type*} (s : Finset α) (P : α → Prop) [DecidablePred P]
    (c : ℝ) (hc : 0 ≤ c) (hu : ∀ a b, P a → P b → a = b) :
    ∑ j ∈ s, (if P j then c else 0) ≤ c := by
  classical
  rw [← Finset.sum_filter, Finset.sum_const]
  have hcard : (s.filter P).card ≤ 1 := by
    apply Finset.card_le_one.mpr
    intro a ha b hb
    exact hu a b (Finset.mem_filter.mp ha).2 (Finset.mem_filter.mp hb).2
  calc (s.filter P).card • c ≤ 1 • c := by
        exact smul_le_smul_of_nonneg_right (by exact_mod_cast hcard) hc
    _ = c := one_smul _ _

/-- `A` is strictly diagonally dominant by rows, hence invertible. -/
theorem Amat_det_ne_zero {p : Params} (hdt : 0 < p.dt) (hdx : 0 < p.dx) :
    (Amat p).det ≠ 0 := by
  apply det_ne_zero_of_sum_row_lt_diag
  intro k
  have hc := creal_pos hdt hdx
  have hr : ‖rC p‖ = creal p := norm_rC hdt hdx
  have hdiag : Amat p k k = 1 + 2 * rC p := by
    simp [Amat, Aentry]
  have hbound : ∀ j ∈ Finset.univ.erase k, ‖Amat p k j‖ ≤
      (if ((j : Fin (nInt p)) : ℕ) = (k : ℕ) + 1 then creal p else 0)
        + (if ((k : Fin (nInt p)) : ℕ) = (j : ℕ) + 1 then creal p else 0) := by
    intro j hj
    have hne : (j : ℕ) ≠ (k : ℕ) := fun h =>
      (Finset.mem_erase.mp hj).1 (Fin.ext h)
    have hkj : ¬ ((k : ℕ) = (j : ℕ)) := by omega
    by_cases h1 : (j : ℕ) = (k : ℕ) + 1
    · have h2 : ¬ ((k : ℕ) = (j : ℕ) + 1) := by omega
      have he : Amat p k j = -rC p := by
        rw [Amat, Matrix.of_apply, Aentry, if_neg hkj, if_pos h1]
      rw [he, norm_neg, hr, if_pos h1, if_neg h2, add_zero]
    · by_cases h2 : (k : ℕ) = (j : ℕ) + 1
      · have he : Amat p k j = -rC p := by
          rw [Amat, Matrix.of_apply, Aentry, if_neg hkj, if_neg h1, if_pos h2]
        rw [he, norm_neg, hr, if_neg h1, if_pos h2, zero_add]
      · have he : Amat p k j = 0 := by
          rw [Amat, Matrix.of_apply, Aentry, if_neg hkj, if_neg h1, if_neg h2]
        rw [he, norm_zero, if_neg h1, if_neg h2, add_zero]
  calc ∑ j ∈ Finset.univ.erase k, ‖Amat p k j‖
      ≤ ∑ j ∈ Finset.univ.erase k,
          ((if ((j : Fin (nInt p)) : ℕ) = (k : ℕ) + 1 then creal p else 0)
            + (if ((k : Fin (nInt p)) : ℕ) = (j : ℕ) + 1 then creal p else 0)) :=
        Finset.sum_le_sum hbound
    _ = (∑ j ∈ Finset.univ.erase k,
          (if ((j : Fin (nInt p)) : ℕ) = (k : ℕ) + 1 then creal p else 0))
        + ∑ j ∈ Finset.univ.erase k,
          (if ((k : Fin (nInt p)) : ℕ) = (j : ℕ) + 1 then creal p else 0) :=
        Finset.sum_add_distrib
    _ ≤ creal p + creal p := by
        gcongr
        · exact sum_ite_le _ _ _ hc.le fun a b ha hb => Fin.ext (by omega)
        · exact sum_ite_le _ _ _ hc.le fun a b ha hb => Fin.ext (by omega)
    _ = 2 * ‖rC p‖ := by rw [hr]; ring
    _ < ‖1 + 2 * rC p‖ := two_norm_rC_lt_norm_diag hdt hdx
    _ = ‖Amat p k k‖ := by rw [hdiag]

/-- `lu.solve` really solves: `A · (lu.solve w) = w` on the `Fin n` model. -/
theorem Amat_mulVec_luSolve {p : Params} (hdt : 0 < p.dt) (hdx : 0 < p.dx)
    (w : ℕ → ℂ) :
    (Amat p).mulVec (fun j : Fin (nInt p) => luSolveN p w j)
      = fun i : Fin (nInt p) => w i := by
  have hsol : (fun j : Fin (nInt p) => luSolveN p w j)
      = (Amat p)⁻¹.mulVec (fun j : Fin (nInt p) => w j) := by
    funext j
    rw [luSolveN, dif_pos j.isLt]
  rw [hsol, Matrix.mulVec_mulVec,
    Matrix.mul_nonsing_inv _ (isUnit_iff_ne_zero.mpr (Amat_det_ne_zero hdt hdx)),
    Matrix.one_mulVec]

/-- The same solve fact on the `ℕ`-indexed model. -/
theorem solve_sum {p : Params} (hdt : 0 < p.dt) (hdx : 0 < p.dx)
    (w : ℕ → ℂ) (i : ℕ) (hi : i < nInt p) :
    ∑ j ∈ Finset.range (nInt p), Aentry p i j * luSolveN p w j = w i := by
  have h := congrFun (Amat_mulVec_luSolve hdt hdx w) ⟨i, hi⟩
  rw [Matrix.mulVec] at h
  simp only [Matrix.dotProduct, Amat, Matrix.of_apply] at h
  rw [← h, ← Fin.sum_univ_eq_sum_range fun j => Aentry p i j * luSolveN p w j]

theorem step_packet (s : Sim) :
    (calculate_timestep s).packet
      = fun i => if 1 ≤ i ∧ i ≤ s.N - 2 then s.lu s.rhs (i - 1) else s.packet i :=
  rfl

theorem step_rhs (s : Sim) :
    (calculate_timestep s).rhs
      = fun i => mulVecR s.n s.B (interiorN (calculate_timestep s).packet) i
          + s.b i :=
  rfl

theorem step_interior (s : Sim) (j : ℕ) (hj : j < s.N - 2) :
    interiorN (calculate_timestep s).packet j = s.lu s.rhs j := by
  have he : (calculate_timestep s).packet (j + 1)
      = if 1 ≤ j + 1 ∧ j + 1 ≤ s.N - 2 then s.lu s.rhs (j + 1 - 1)
        else s.packet (j + 1) := rfl
  show (calculate_timestep s).packet (j + 1) = s.lu s.rhs j
  rw [he, if_pos ⟨by omega, by omega⟩, Nat.add_sub_cancel]

theorem valid_default : Valid defaultParams := by
  refine ⟨by norm_num [defaultParams], by norm_num [defaultParams],
    by norm_num [defaultParams], by norm_num [defaultParams],
    by norm_num [defaultParams], by norm_num [defaultParams],
    by norm_num [defaultParams], ?_⟩
  rw [divisionX_default]
  norm_num

theorem NN_default : NN defaultParams = 4200 := by
  rw [NN, divisionX_default]; rfl

/-- **C1.** For every valid construction, the matrix dimension is
`n = N - 2`, `A` is tridiagonal with main diagonal `1 + 2r` and off-diagonals
`-r`, `B` is tridiagonal with main diagonal
`q_j = -i·dt/ħ·V_(j+1) + 1 - 2r` (the potential restricted to interior
points) and off-diagonals `r`, `b` is the zero vector, and
`r = i·dt/dx² · ħ/(4·m_e)` with `dx`, `dt` the SI-converted steps. -/
theorem matrix_assembly (p : Params) (h : Valid p) :
    (build p).n = (build p).N - 2 ∧
    (build p).dx = p.dx * 1e-12 ∧
    (build p).dt = p.dt * 1e-18 ∧
    rC p = Complex.I * ((build p).dt : ℂ) / ((build p).dx : ℂ) ^ 2
      * ((hbar : ℝ) : ℂ) / (4 * ((mE : ℝ) : ℂ)) ∧
    (∀ i, i < (build p).n → (build p).A i i = 1 + 2 * rC p) ∧
    (∀ i j, i < (build p).n → j < (build p).n → (j = i + 1 ∨ i = j + 1) →
      (build p).A i j = -rC p) ∧
    (∀ i j, i < (build p).n → j < (build p).n → i ≠ j →
      ¬(j = i + 1 ∨ i = j + 1) → (build p).A i j = 0) ∧
    (∀ i, i < (build p).n → (build p).B i i
      = -Complex.I * ((build p).dt : ℂ) / ((hbar : ℝ) : ℂ)
          * ((build p).V (i + 1) : ℂ) + 1 - 2 * rC p) ∧
    (∀ i j, i < (build p).n → j < (build p).n → (j = i + 1 ∨ i = j + 1) →
      (build p).B i j = rC p) ∧
    (∀ i j, i < (build p).n → j < (build p).n → i ≠ j →
      ¬(j = i + 1 ∨ i = j + 1) → (build p).B i j = 0) ∧
    (∀ i, (build p).b i = 0) := by
  refine ⟨rfl, rfl, rfl, ?_, ?_, ?_, ?_, ?_, ?_, ?_, fun i => rfl⟩
  · rw [rC]; rfl
  · intro i _
    show Aentry p i i = 1 + 2 * rC p
    rw [Aentry, if_pos rfl]
  · intro i j _ _ hadj
    show Aentry p i j = -rC p
    rcases hadj with h1 | h1
    · rw [Aentry, if_neg (by omega), if_pos h1]
    · rw [Aentry, if_neg (by omega), if_neg (by omega), if_pos h1]
  · intro i j _ _ hne hadj
    show Aentry p i j = 0
    rw [Aentry, if_neg hne, if_neg (by omega), if_neg (by omega)]
  · intro i _
    show Bentry p i i = _
    rw [Bentry, if_pos rfl, qC]
    rfl
  · intro i j _ _ hadj
    show Bentry p i j = rC p
    rcases hadj with h1 | h1
    · rw [Bentry, if_neg (by omega), if_pos h1]
    · rw [Bentry, if_neg (by omega), if_neg (by omega), if_pos h1]
  · intro i j _ _ hne hadj
    show Bentry p i j = 0
    rw [Bentry, if_neg hne, if_neg (by omega), if_neg (by omega)]

theorem matrix_assembly_witness :
    Valid defaultParams ∧
    ((build defaultParams).n = (build defaultParams).N - 2 ∧
    (build defaultParams).dx = defaultParams.dx * 1e-12 ∧
    (build defaultParams).dt = defaultParams.dt * 1e-18 ∧
    rC defaultParams = Complex.I * ((build defaultParams).dt : ℂ)
      / ((build defaultParams).dx : ℂ) ^ 2
      * ((hbar : ℝ) : ℂ) / (4 * ((mE : ℝ) : ℂ)) ∧
    (∀ i, i < (build defaultParams).n →
      (build defaultParams).A i i = 1 + 2 * rC defaultParams) ∧
    (∀ i j, i < (build defaultParams).n → j < (build defaultParams).n →
      (j = i + 1 ∨ i = j + 1) → (build defaultParams).A i j = -rC defaultParams) ∧
    (∀ i j, i < (build defaultParams).n → j < (build defaultParams).n → i ≠ j →
      ¬(j = i + 1 ∨ i = j + 1) → (build defaultParams).A i j = 0) ∧
    (∀ i, i < (build defaultParams).n → (build defaultParams).B i i
      = -Complex.I * ((build defaultParams).dt : ℂ) / ((hbar : ℝ) : ℂ)
          * ((build defaultParams).V (i + 1) : ℂ) + 1 - 2 * rC defaultParams) ∧
    (∀ i j, i < (build defaultParams).n → j < (build defaultParams).n →
      (j = i + 1 ∨ i = j + 1) → (build defaultParams).B i j = rC defaultParams) ∧
    (∀ i j, i < (build defaultParams).n → j < (build defaultParams).n → i ≠ j →
      ¬(j = i + 1 ∨ i = j + 1) → (build defaultParams).B i j = 0) ∧
    (∀ i, (build defaultParams).b i = 0)) :=
  ⟨valid_default, matrix_assembly defaultParams valid_default⟩

/-- **C3.** The factorisation of `A` (the `lu` solver) is set once at
construction and is never recomputed by stepping; iterating the
advance-one-step operation any number of times leaves every precomputed
field (grids, potential, wavenumber data, `A`, `B`, `b`, factorisation, SI
parameters) equal to its construction value, and each step is exactly a
record update of the state vector and the right-hand-side cache. -/
theorem factorization_and_frame (p : Params) (m : ℕ) :
    ((calculate_timestep^[m] (build p)).lu = luSolveN p) ∧
    ((calculate_timestep^[m] (build p)).A = (build p).A) ∧
    ((calculate_timestep^[m] (build p)).B = (build p).B) ∧
    ((calculate_timestep^[m] (build p)).b = (build p).b) ∧
    ((calculate_timestep^[m] (build p)).x = (build p).x) ∧
    ((calculate_timestep^[m] (build p)).t = (build p).t) ∧
    ((calculate_timestep^[m] (build p)).V = (build p).V) ∧
    ((calculate_timestep^[m] (build p)).k = (build p).k) ∧
    ((calculate_timestep^[m] (build p)).dk = (build p).dk) ∧
    ((calculate_timestep^[m] (build p)).K = (build p).K) ∧
    ((calculate_timestep^[m] (build p)).N = (build p).N) ∧
    ((calculate_timestep^[m] (build p)).n = (build p).n) ∧
    ((calculate_timestep^[m] (build p)).T = (build p).T) ∧
    ((calculate_timestep^[m] (build p)).size_packet = (build p).size_packet) ∧
    ((calculate_timestep^[m] (build p)).size_barrier = (build p).size_barrier) ∧
    ((calculate_timestep^[m] (build p)).time_duration = (build p).time_duration) ∧
    ((calculate_timestep^[m] (build p)).energy_packet = (build p).energy_packet) ∧
    ((calculate_timestep^[m] (build p)).potential_barrier_height
      = (build p).potential_barrier_height) ∧
    ((calculate_timestep^[m] (build p)).dx = (build p).dx) ∧
    ((calculate_timestep^[m] (build p)).dt = (build p).dt) ∧
    ((calculate_timestep^[m] (build p)).x_packet = (build p).x_packet) ∧
    ((calculate_timestep^[m] (build p)).x_barrier = (build p).x_barrier) ∧
    ((calculate_timestep^[m] (build p)).x_min = (build p).x_min) ∧
    ((calculate_timestep^[m] (build p)).x_max = (build p).x_max) ∧
    (∀ s : Sim, calculate_timestep s
      = { s with packet := (calculate_timestep s).packet,
                 rhs := (calculate_timestep s).rhs }) := by
  obtain ⟨h1, h2, h3, h4, h5, h6, h7, h8, h9, h10, h11, h12, h13, h14, h15,
    h16, h17, h18, h19, h20, h21, h22, h23, h24⟩ :=
    frozen_iterate (build p) m
  exact ⟨h24, h21, h22, h23, h15, h16, h17, h18, h19, h20, h1, h2, h3, h4, h5,
    h6, h7, h8, h9, h10, h11, h12, h13, h14, fun s => rfl⟩

/-- The cache invariant `rhs = B · packet[1:-1] + b` holds after
construction and after every step. -/
theorem rhs_invariant (p : Params) (m : ℕ) :
    (calculate_timestep^[m] (build p)).rhs
      = fun i => mulVecR (build p).n (build p).B
          (interiorN (calculate_timestep^[m] (build p)).packet) i
          + (build p).b i := by
  cases m with
  | zero => rfl
  | succ m =>
    rw [Function.iterate_succ_apply']
    obtain ⟨-, hn, -, -, -, -, -, -, -, -, -, -, -, -, -, -, -, -, -, -, hA,
      hB, hb, -⟩ := frozen_iterate (build p) m
    rw [step_rhs, hn, hB, hb]

/-- **C2.** Each advance-one-step call sets the interior entries (indices
`1 … N-2`) of the state vector to the solution `x` of `A·x = rhs_cache`
(the old cache) and then recomputes `rhs_cache = B·(new interior) + b`;
the cache is initialised at construction to `B·packet[1:-1] + b`, so after
construction and after every step the cache equals `B` applied to the
current interior plus `b`. -/
theorem timestep_solves_system (p : Params) (h : Valid p) :
    ((build p).rhs
      = fun i => mulVecR (build p).n (build p).B (interiorN (build p).packet) i
          + (build p).b i) ∧
    (∀ m i, i < (build p).n →
      ∑ j ∈ Finset.range (build p).n,
          (build p).A i j * (calculate_timestep^[m + 1] (build p)).packet (j + 1)
        = (calculate_timestep^[m] (build p)).rhs i) ∧
    (∀ m, (calculate_timestep^[m] (build p)).rhs
      = fun i => mulVecR (build p).n (build p).B
          (interiorN (calculate_timestep^[m] (build p)).packet) i
          + (build p).b i) := by
  obtain ⟨-, -, -, -, -, hdx', hdt', -⟩ := h
  refine ⟨rfl, ?_, rhs_invariant p⟩
  intro m i hi
  have hfr := frozen_iterate (build p) m
  obtain ⟨hN, -, -, -, -, -, -, -, -, -, -, -, -, -, -, -, -, -, -, -, -, -,
    -, hlu⟩ := hfr
  have hsum : ∀ j ∈ Finset.range (build p).n,
      (build p).A i j * (calculate_timestep^[m + 1] (build p)).packet (j + 1)
        = Aentry p i j
          * luSolveN p (calculate_timestep^[m] (build p)).rhs j := by
    intro j hj
    have hj' : j < (calculate_timestep^[m] (build p)).N - 2 := by
      rw [hN]
      exact Finset.mem_range.mp hj
    have : (calculate_timestep^[m + 1] (build p)).packet (j + 1)
        = luSolveN p (calculate_timestep^[m] (build p)).rhs j := by
      rw [Function.iterate_succ_apply']
      have := step_interior (calculate_timestep^[m] (build p)) j hj'
      rw [interiorN] at this
      rw [this, hlu]
      rfl
    rw [this]
    rfl
  rw [Finset.sum_congr rfl hsum]
  exact solve_sum hdt' hdx' _ i hi

theorem timestep_solves_system_witness :
    Valid defaultParams ∧
    (((build defaultParams).rhs
      = fun i => mulVecR (build defaultParams).n (build defaultParams).B
          (interiorN (build defaultParams).packet) i
          + (build defaultParams).b i) ∧
    (∀ m i, i < (build defaultParams).n →
      ∑ j ∈ Finset.range (build defaultParams).n,
          (build defaultParams).A i j
            * (calculate_timestep^[m + 1] (build defaultParams)).packet (j + 1)
        = (calculate_timestep^[m] (build defaultParams)).rhs i) ∧
    (∀ m, (calculate_timestep^[m] (build defaultParams)).rhs
      = fun i => mulVecR (build defaultParams).n (build defaultParams).B
          (interiorN (calculate_timestep^[m] (build defaultParams)).packet) i
          + (build defaultParams).b i)) :=
  ⟨valid_default, timestep_solves_system defaultParams valid_default⟩

/-- **C5.** For every valid construction and any number of steps, the first
and last entries of the state vector returned by `get_packet` keep their
initial Gaussian-tail values: steps write only interior entries. -/
theorem boundary_pinned (p : Params) (h : Valid p) (m : ℕ) :
    (calculate_timestep^[m] (build p)).get_packet 0
        = gauss p (xGrid p 0) ∧
    (calculate_timestep^[m] (build p)).get_packet ((build p).N - 1)
        = gauss p (xGrid p ((build p).N - 1)) := by
  have hN3 : 3 ≤ (build p).N := by
    have h8 := h.2.2.2.2.2.2.2
    have hNN : (build p).N = (divisionX p).toNat := rfl
    omega
  induction m with
  | zero => exact ⟨rfl, rfl⟩
  | succ m ih =>
    rw [Function.iterate_succ_apply']
    set s := calculate_timestep^[m] (build p) with hs
    have hN : s.N = (build p).N := (frozen_iterate (build p) m).1
    have h0 : (calculate_timestep s).packet 0 = s.packet 0 := by
      rw [step_packet]
      exact if_neg (by omega)
    have h1 : (calculate_timestep s).packet ((build p).N - 1)
        = s.packet ((build p).N - 1) := by
      rw [step_packet, hN]
      exact if_neg (by omega)
    exact ⟨h0.trans ih.1, h1.trans ih.2⟩

theorem boundary_pinned_witness :
    Valid defaultParams ∧
    ((calculate_timestep^[5] (build defaultParams)).get_packet 0
        = gauss defaultParams (xGrid defaultParams 0) ∧
    (calculate_timestep^[5] (build defaultParams)).get_packet
        ((build defaultParams).N - 1)
        = gauss defaultParams (xGrid defaultParams ((build defaultParams).N - 1))) :=
  ⟨valid_default, boundary_pinned defaultParams valid_default 5⟩

theorem NN_pos_of_valid {p : Params} (h : Valid p) : 3 ≤ NN p := by
  have h8 := h.2.2.2.2.2.2.2
  have hNN : NN p = (divisionX p).toNat := rfl
  omega

/-- **C6.** Construction derives `σ = 6·packet_size` (SI), centres the packet
at `x_packet = 2σ`, starts the barrier at `x_barrier = x_packet + σ`, sets
`x_min = 0` and `x_max = x_barrier + 4σ`, and builds the spatial grid as
`N = ⌊(x_max - x_min)/dx⌋` points spanning `[0, x_max]`: the grid starts at
`x_min = 0`, ends at `x_max`, and is uniformly spaced. -/
theorem grid_layout (p : Params) (h : Valid p) :
    sigmaV p = 6 * (p.size_packet * 1e-9) ∧
    (build p).x_packet = 2 * sigmaV p ∧
    (build p).x_barrier = (build p).x_packet + sigmaV p ∧
    (build p).x_min = 0 ∧
    (build p).x_max = (build p).x_barrier + 4 * sigmaV p ∧
    divisionX p = ⌊((build p).x_max - (build p).x_min) / (build p).dx⌋ ∧
    (build p).N = (divisionX p).toNat ∧
    (build p).x 0 = (build p).x_min ∧
    (build p).x ((build p).N - 1) = (build p).x_max ∧
    (∀ i, i + 1 < (build p).N →
      (build p).x (i + 1) - (build p).x i
        = ((build p).x_max - (build p).x_min) / (((build p).N : ℚ) - 1)) := by
  have hN3 : 3 ≤ NN p := NN_pos_of_valid h
  obtain ⟨hsp, -, -, -, -, hdx, -, -⟩ := h
  have hxmax : xMaxV p = 42 * siSizePacket p := by
    rw [xMaxV, xBarrierV, xPacketV, sigmaV]; ring
  have hxmax_pos : 0 < xMaxV p := by
    rw [hxmax, siSizePacket]
    have : (0:ℚ) < 1e-9 := by norm_num
    positivity
  have hdx_pos : 0 < siDx p := by
    rw [siDx]
    have : (0:ℚ) < 1e-12 := by norm_num
    positivity
  have hcast : ((NN p : ℚ)) - 1 ≠ 0 := by
    have : (3 : ℚ) ≤ (NN p : ℚ) := by exact_mod_cast hN3
    intro hq
    have : (NN p : ℚ) = 1 := by linarith
    have : NN p = 1 := by exact_mod_cast this
    omega
  refine ⟨by rw [sigmaV, siSizePacket], rfl, rfl, rfl, rfl, ?_, rfl, ?_, ?_, ?_⟩
  · show pyInt ((xMaxV p - xMinV) / siDx p) = _
    rw [pyInt_eq_floor (by
      apply div_nonneg _ hdx_pos.le
      rw [xMinV, sub_zero]
      exact hxmax_pos.le)]
    rfl
  · show xGrid p 0 = xMinV
    rw [xGrid, linspace, if_neg (by omega)]
    push_cast
    ring
  · show xGrid p (NN p - 1) = xMaxV p
    rw [xGrid, linspace, if_neg (by omega)]
    rw [Nat.cast_sub (by omega), Nat.cast_one, xMinV]
    field_simp
  · intro i hi
    show xGrid p (i + 1) - xGrid p i = (xMaxV p - xMinV) / ((NN p : ℚ) - 1)
    rw [xGrid, xGrid, linspace, linspace, if_neg (by omega), if_neg (by omega)]
    push_cast
    field_simp
    ring

theorem grid_layout_witness :
    Valid defaultParams ∧
    (sigmaV defaultParams = 6 * (defaultParams.size_packet * 1e-9) ∧
    (build defaultParams).x_packet = 2 * sigmaV defaultParams ∧
    (build defaultParams).x_barrier
      = (build defaultParams).x_packet + sigmaV defaultParams ∧
    (build defaultParams).x_min = 0 ∧
    (build defaultParams).x_max
      = (build defaultParams).x_barrier + 4 * sigmaV defaultParams ∧
    divisionX defaultParams
      = ⌊((build defaultParams).x_max - (build defaultParams).x_min)
          / (build defaultParams).dx⌋ ∧
    (build defaultParams).N = (divisionX defaultParams).toNat ∧
    (build defaultParams).x 0 = (build defaultParams).x_min ∧
    (build defaultParams).x ((build defaultParams).N - 1)
      = (build defaultParams).x_max ∧
    (∀ i, i + 1 < (build defaultParams).N →
      (build defaultParams).x (i + 1) - (build defaultParams).x i
        = ((build defaultParams).x_max - (build defaultParams).x_min)
            / (((build defaultParams).N : ℚ) - 1))) :=
  ⟨valid_default, grid_layout defaultParams valid_default⟩

/-- **C7.** The initial state vector is the complex Gaussian
`exp(-(x - x_packet)²/(4·size_packet²) + i·k·x) / (2π·size_packet²)^(1/4)`
evaluated at every grid point, including the two boundary points, with
`k = sqrt(2·m_e·E)/ħ`; in particular the boundary entries are not zero. -/
theorem initial_packet (p : Params) (h : Valid p) :
    (∀ i, i < (build p).N → (build p).packet i
      = Complex.exp
          (-(((build p).x i : ℂ) - ((build p).x_packet : ℂ)) ^ 2
              / (4 * ((build p).size_packet : ℂ) ^ 2)
            + Complex.I * ((build p).k : ℂ) * ((build p).x i : ℂ))
        / (((2 * Real.pi * ((build p).size_packet : ℝ) ^ 2)
              ^ ((0.25 : ℝ)) : ℝ) : ℂ)) ∧
    (build p).k = Real.sqrt (2 * mE * ((build p).energy_packet : ℝ)) / hbar ∧
    (build p).packet 0 ≠ 0 ∧
    (build p).packet ((build p).N - 1) ≠ 0 := by
  have hsp : (0:ℝ) < (siSizePacket p : ℝ) := by
    have h1 : (0:ℝ) < (p.size_packet : ℝ) := by exact_mod_cast h.1
    rw [siSizePacket]
    push_cast
    exact mul_pos h1 (by norm_num)
  have hden : (0:ℝ) < (2 * Real.pi * (siSizePacket p : ℝ) ^ 2) ^ ((0.25 : ℝ)) := by
    apply Real.rpow_pos_of_pos
    exact mul_pos (mul_pos two_pos Real.pi_pos) (pow_pos hsp 2)
  have hnz : ∀ i, (build p).packet i ≠ 0 := by
    intro i
    show gauss p (xGrid p i) ≠ 0
    rw [gauss]
    exact div_ne_zero (Complex.exp_ne_zero _)
      (Complex.ofReal_ne_zero.mpr (ne_of_gt hden))
  exact ⟨fun i _ => rfl, rfl, hnz 0, hnz _⟩

theorem initial_packet_witness :
    Valid defaultParams ∧
    ((∀ i, i < (build defaultParams).N → (build defaultParams).packet i
      = Complex.exp
          (-(((build defaultParams).x i : ℂ)
                - ((build defaultParams).x_packet : ℂ)) ^ 2
              / (4 * ((build defaultParams).size_packet : ℂ) ^ 2)
            + Complex.I * ((build defaultParams).k : ℂ)
                * ((build defaultParams).x i : ℂ))
        / (((2 * Real.pi * ((build defaultParams).size_packet : ℝ) ^ 2)
              ^ ((0.25 : ℝ)) : ℝ) : ℂ)) ∧
    (build defaultParams).k
      = Real.sqrt (2 * mE * ((build defaultParams).energy_packet : ℝ)) / hbar ∧
    (build defaultParams).packet 0 ≠ 0 ∧
    (build defaultParams).packet ((build defaultParams).N - 1) ≠ 0) :=
  ⟨valid_default, initial_packet defaultParams valid_default⟩

/-- **C8.** The potential profile equals the barrier height exactly at grid
points with `x_barrier ≤ x ≤ x_barrier + size_barrier` (inclusive on both
sides) and zero elsewhere; the height is strictly positive for a valid
construction, and stepping never changes the profile. -/
theorem potential_profile (p : Params) (h : Valid p) :
    (∀ i, (build p).V i
      = if (build p).x_barrier ≤ (build p).x i ∧
            (build p).x i ≤ (build p).x_barrier + (build p).size_barrier
        then (build p).potential_barrier_height else 0) ∧
    0 < (build p).potential_barrier_height ∧
    (∀ m, (calculate_timestep^[m] (build p)).V = (build p).V) := by
  refine ⟨fun i => rfl, ?_, fun m => (frozen_iterate (build p) m).2.2.2.2.2.2.2.2.2.2.2.2.2.2.2.2.1⟩
  have h5 := h.2.2.2.2.1
  show 0 < siPBH p
  rw [siPBH, eCharge]
  have : (0:ℚ) < 1.602176634e-19 := by norm_num
  positivity

theorem divisionX_lowDuration : divisionX lowDurationParams = 4200 := by
  have h : divisionX lowDurationParams = divisionX defaultParams := rfl
  rw [h, divisionX_default]

theorem divisionTime_lowDuration : divisionTime lowDurationParams = 0 := by
  have h : siTimeDuration lowDurationParams / siDt lowDurationParams
      = (1/10 : ℚ) := by
    norm_num [siTimeDuration, siDt, lowDurationParams]
  rw [divisionTime, h, pyInt_eq_floor (by norm_num), Int.floor_eq_zero_iff]
  constructor <;> norm_num

/-- **C4, counterexample.** A construction whose temporal grid is degenerate
(`T = 0 < 1`) does not raise: the constructor returns a usable instance, so
the claim that every such input fails with `InvalidConfiguration` is false
(no such error exists in the source at all). -/
theorem no_validation_counterexample :
    divisionTime lowDurationParams < 1 ∧
    construct lowDurationParams = Except.ok (build lowDurationParams) := by
  refine ⟨by rw [divisionTime_lowDuration]; norm_num, ?_⟩
  unfold construct
  rw [divisionX_lowDuration]
  norm_num

/-- **C4, amended.** Construction performs no parameter validation: for
strictly positive parameters it succeeds whenever the spatial grid has at
least three points (`N ≥ 3`) — including when the temporal grid is
degenerate — and aborts only for `N ≤ 2`, with low-level library errors
(`numpy` negative-dimension error for `N ≤ 1`, index error for `N = 2`),
never with an `InvalidConfiguration` error. -/
theorem no_validation (p : Params)
    (hpos : 0 < p.size_packet ∧ 0 < p.size_barrier ∧ 0 < p.duration_time ∧
      0 < p.energy_packet ∧ 0 < p.potential_barrier_height ∧
      0 < p.dx ∧ 0 < p.dt) :
    (3 ≤ divisionX p → construct p = Except.ok (build p)) ∧
    (divisionX p ≤ 1 → construct p = Except.error BuildError.negativeDimension) ∧
    (divisionX p = 2 → construct p = Except.error BuildError.indexOutOfRange) := by
  refine ⟨fun hdiv => ?_, fun hdiv => ?_, fun hdiv => ?_⟩ <;> unfold construct
  · rw [if_neg (by omega), if_neg (by omega)]
  · rw [if_pos (by omega)]
  · rw [if_neg (by omega), if_pos (by omega)]

theorem no_validation_witness :
    (0 < lowDurationParams.size_packet ∧ 0 < lowDurationParams.size_barrier ∧
      0 < lowDurationParams.duration_time ∧ 0 < lowDurationParams.energy_packet ∧
      0 < lowDurationParams.potential_barrier_height ∧
      0 < lowDurationParams.dx ∧ 0 < lowDurationParams.dt) ∧
    ((3 ≤ divisionX lowDurationParams →
      construct lowDurationParams = Except.ok (build lowDurationParams)) ∧
    (divisionX lowDurationParams ≤ 1 →
      construct lowDurationParams = Except.error BuildError.negativeDimension) ∧
    (divisionX lowDurationParams = 2 →
      construct lowDurationParams = Except.error BuildError.indexOutOfRange)) :=
  ⟨by norm_num [lowDurationParams],
   no_validation lowDurationParams (by norm_num [lowDurationParams])⟩

/-- **C9, counterexample.** With the documented default parameters the
temporal step count is `int(30e-15 / 10e-18) = 3000`, not `3,000,000` as
claimed. -/
theorem default_T_counterexample : (build defaultParams).T ≠ 3000000 := by
  show TT defaultParams ≠ 3000000
  rw [TT, divisionTime_default]
  decide

/-- **C9, amended.** With the documented default parameters,
`T = ⌊30 fs / 10 as⌋ = 3000` (not `3,000,000`), the spatial point count is
`N = 4200`, and the length `N` of the state vector (the `N` field indexing
`get_packet`) is unchanged after one advance-one-step call. -/
theorem default_scenario :
    (build defaultParams).T = 3000 ∧
    (build defaultParams).N = 4200 ∧
    (calculate_timestep (build defaultParams)).N = (build defaultParams).N ∧
    (calculate_timestep (build defaultParams)).T = (build defaultParams).T := by
  refine ⟨?_, NN_default, rfl, rfl⟩
  show TT defaultParams = 3000
  rw [TT, divisionTime_default]
  rfl

theorem potential_profile_witness :
    Valid defaultParams ∧
    ((∀ i, (build defaultParams).V i
      = if (build defaultParams).x_barrier ≤ (build defaultParams).x i ∧
            (build defaultParams).x i
              ≤ (build defaultParams).x_barrier
                  + (build defaultParams).size_barrier
        then (build defaultParams).potential_barrier_height else 0) ∧
    0 < (build defaultParams).potential_barrier_height ∧
    (∀ m, (calculate_timestep^[m] (build defaultParams)).V
      = (build defaultParams).V)) :=
  ⟨valid_default, potential_profile defaultParams valid_default⟩

theorem spacing_default :
    (build defaultParams).x 1 - (build defaultParams).x 0
      = 42e-9 / 4199 := by
  show xGrid defaultParams 1 - xGrid defaultParams 0 = _
  rw [xGrid, xGrid, NN_default, linspace, linspace, if_neg (by omega),
    if_neg (by omega)]
  norm_num [xMaxV, xBarrierV, xPacketV, sigmaV, siSizePacket, xMinV,
    defaultParams]

theorem spacing_default_ne_dx :
    (build defaultParams).x 1 - (build defaultParams).x 0
      ≠ (build defaultParams).dx := by
  rw [spacing_default]
  show (42e-9 / 4199 : ℚ) ≠ siDx defaultParams
  norm_num [siDx, defaultParams]

/-- **C10.** For every valid construction the distance between consecutive
grid points is `(x_max - x_min)/(N - 1)` (both endpoints are included in the
grid), which at the default parameters differs from the configured `dx`;
yet the coefficient `r` is computed from the configured (SI-converted) `dx`,
not from the realized spacing: at the defaults, `r` differs from the value
the same formula would give with the realized spacing. -/
theorem spacing_mismatch (p : Params) (h : Valid p) :
    (∀ i, i + 1 < (build p).N →
      (build p).x (i + 1) - (build p).x i
        = ((build p).x_max - (build p).x_min) / (((build p).N : ℚ) - 1)) ∧
    rC p = Complex.I * ((build p).dt : ℂ) / ((build p).dx : ℂ) ^ 2
      * ((hbar : ℝ) : ℂ) / (4 * ((mE : ℝ) : ℂ)) ∧
    ((build defaultParams).x 1 - (build defaultParams).x 0
      ≠ (build defaultParams).dx) ∧
    rC defaultParams ≠ Complex.I * ((build defaultParams).dt : ℂ)
      / (((build defaultParams).x 1 - (build defaultParams).x 0 : ℚ) : ℂ) ^ 2
      * ((hbar : ℝ) : ℂ) / (4 * ((mE : ℝ) : ℂ)) := by
  have hN3 : 3 ≤ NN p := NN_pos_of_valid h
  refine ⟨?_, by rw [rC]; rfl, spacing_default_ne_dx, ?_⟩
  · intro i hi
    show xGrid p (i + 1) - xGrid p i = (xMaxV p - xMinV) / ((NN p : ℚ) - 1)
    have hc : ((NN p : ℚ)) - 1 ≠ 0 := by
      have : (3 : ℚ) ≤ (NN p : ℚ) := by exact_mod_cast hN3
      intro hq
      have h1 : (NN p : ℚ) = 1 := by linarith
      have h2 : NN p = 1 := by exact_mod_cast h1
      omega
    rw [xGrid, xGrid, linspace, linspace, if_neg (by omega), if_neg (by omega)]
    push_cast
    field_simp
    ring
  · intro heq
    have key : ∀ dtq dxq : ℚ,
        Complex.I * (dtq : ℂ) / (dxq : ℂ) ^ 2 * ((hbar : ℝ) : ℂ)
            / (4 * ((mE : ℝ) : ℂ))
          = Complex.I * (((dtq : ℝ) / (dxq : ℝ) ^ 2 * hbar
              / (4 * mE) : ℝ) : ℂ) := by
      intro dtq dxq
      push_cast
      ring
    have hlhs : rC defaultParams = Complex.I *
        (((siDt defaultParams : ℝ) / (siDx defaultParams : ℝ) ^ 2
          * hbar / (4 * mE) : ℝ) : ℂ) := by
      rw [rC]; exact key _ _
    rw [hlhs,
      show ((build defaultParams).dt : ℂ) = ((siDt defaultParams : ℚ) : ℂ)
        from rfl,
      key (siDt defaultParams)
        ((build defaultParams).x 1 - (build defaultParams).x 0)] at heq
    have hreal := Complex.ofReal_inj.mp
      (mul_left_cancel₀ Complex.I_ne_zero heq)
    have hd1pos : (0:ℝ) < ((siDx defaultParams : ℚ) : ℝ) := by
      have hv : (siDx defaultParams : ℚ) = 1e-11 := by
        norm_num [siDx, defaultParams]
      rw [hv]
      norm_num
    have hd2pos : (0:ℝ)
        < (((build defaultParams).x 1 - (build defaultParams).x 0 : ℚ) : ℝ) := by
      rw [spacing_default]
      exact_mod_cast (by norm_num : (0:ℚ) < 42e-9/4199)
    have hdtpos : (0:ℝ) < ((siDt defaultParams : ℚ) : ℝ) := by
      have hv : (siDt defaultParams : ℚ) = 1e-17 := by
        norm_num [siDt, defaultParams]
      rw [hv]
      norm_num
    have hnecast : ((siDx defaultParams : ℚ) : ℝ)
        ≠ (((build defaultParams).x 1 - (build defaultParams).x 0 : ℚ) : ℝ) := by
      intro hc
      exact spacing_default_ne_dx (by exact_mod_cast hc.symm)
    have hb := hbar_pos
    have hm := mE_pos
    have h4m : (0:ℝ) < 4 * mE := by nlinarith
    have h1 := mul_right_cancel₀ (ne_of_gt h4m)
      ((div_eq_div_iff (ne_of_gt h4m) (ne_of_gt h4m)).mp hreal)
    have h2 := mul_right_cancel₀ (ne_of_gt hb) h1
    have h3 := (div_eq_div_iff
      (pow_ne_zero 2 (ne_of_gt hd1pos)) (pow_ne_zero 2 (ne_of_gt hd2pos))).mp h2
    have hsq := mul_left_cancel₀ (ne_of_gt hdtpos) h3
    rcases lt_or_gt_of_ne hnecast with hz | hz
    · nlinarith
    · nlinarith

theorem spacing_mismatch_witness :
    Valid defaultParams ∧
    ((∀ i, i + 1 < (build defaultParams).N →
      (build defaultParams).x (i + 1) - (build defaultParams).x i
        = ((build defaultParams).x_max - (build defaultParams).x_min)
            / (((build defaultParams).N : ℚ) - 1)) ∧
    rC defaultParams = Complex.I * ((build defaultParams).dt : ℂ)
      / ((build defaultParams).dx : ℂ) ^ 2
      * ((hbar : ℝ) : ℂ) / (4 * ((mE : ℝ) : ℂ)) ∧
    ((build defaultParams).x 1 - (build defaultParams).x 0
      ≠ (build defaultParams).dx) ∧
    rC defaultParams ≠ Complex.I * ((build defaultParams).dt : ℂ)
      / (((build defaultParams).x 1 - (build defaultParams).x 0 : ℚ) : ℂ) ^ 2
      * ((hbar : ℝ) : ℂ) / (4 * ((mE : ℝ) : ℂ))) :=
  ⟨valid_default, spacing_mismatch defaultParams valid_default⟩

end QT
